import Mathlib

/-!
# Verification of the MEGA direct-download proxy (`src/server.js`)

This file gives a shallow embedding of the pure logic of the proxy server:

* `isAllowedMegaLink`  — the enhanced link validator (server.js lines 17-31);
* `isAllowedMegaLinkLegacy` — the legacy link validator (server.js lines 174-183);
* `parseRange`         — the `Range` header parser (server.js lines 36-45);
* `mapError`           — the error mapping of the `/dl` catch branch (lines 116-141);
* `dlHandler`          — the `/dl` request handler as a pure function of the
                         link, the `Range` header and the provider outcome.

JavaScript strings are modelled as Lean `String` / `List Char`; JavaScript
numbers appearing in range arithmetic are modelled as exact integers (`Int`);
`undefined` / `null` are modelled with `Option`.  The WHATWG `new URL` parser
(a platform library, not part of the repository) is modelled by `parseURL`,
a simplified but behaviour-faithful parser covering scheme, authority
(userinfo / host / port), path, query and fragment extraction.
-/

namespace MegaProxy

/-! ## Generic JavaScript string helpers -/

/-- Boolean prefix test on character lists (used to model
JavaScript `String.prototype.startsWith`). -/
def listPrefixOf : List Char → List Char → Bool
  | [], _ => true
  | _ :: _, [] => false
  | p :: ps, c :: cs => p == c && listPrefixOf ps cs

/-- Model of JavaScript `s.startsWith(p)`. -/
def jsStartsWith (s p : String) : Bool :=
  listPrefixOf p.toList s.toList

/-- Substring test on character lists (used to model
JavaScript `String.prototype.includes`). -/
def listContainsSub : List Char → List Char → Bool
  | l, sub =>
    if listPrefixOf sub l then true
    else match l with
      | [] => false
      | _ :: t => listContainsSub t sub

/-- Model of JavaScript `s.includes(sub)`. -/
def jsIncludes (s sub : String) : Bool :=
  listContainsSub s.toList sub.toList

/-- ASCII decimal digit test by code point (the digit test used by
JavaScript `parseInt` with radix 10). -/
def isDigitChar (c : Char) : Bool :=
  48 ≤ c.toNat && c.toNat ≤ 57

/-- White-space characters skipped by JavaScript `parseInt`
(space, tab, LF, VT, FF, CR). -/
def isJsSpace (c : Char) : Bool :=
  c.toNat = 32 || c.toNat = 9 || c.toNat = 10 || c.toNat = 11 || c.toNat = 12 || c.toNat = 13

/-- Numeric value of a list of decimal digit characters, most significant
first (the accumulation performed by `parseInt` over the consumed digits). -/
def digitsVal (l : List Char) : Nat :=
  l.foldl (fun a c => 10 * a + (c.toNat - 48)) 0

/-- Parse a maximal leading run of decimal digits; `none` when there is no
leading digit (JavaScript `NaN`). -/
def parseDigits (l : List Char) : Option Nat :=
  let ds := l.takeWhile isDigitChar
  if ds = [] then none else some (digitsVal ds)

/-- Model of JavaScript `parseInt(str, 10)`: skip leading white-space, read an
optional sign, then consume leading decimal digits; `none` models `NaN`. -/
def jsParseIntL (l : List Char) : Option Int :=
  let l2 := l.dropWhile isJsSpace
  match l2 with
  | [] => none
  | c :: rest =>
    if c = '-' then (parseDigits rest).map (fun n => -(n : Int))
    else if c = '+' then (parseDigits rest).map (fun n => (n : Int))
    else (parseDigits (c :: rest)).map (fun n => (n : Int))

/-- Model of JavaScript `str.split("-")` (split at every dash, keeping empty
segments; always returns at least one segment). -/
def splitDash : List Char → List (List Char)
  | [] => [[]]
  | c :: t =>
    if c = '-' then [] :: splitDash t
    else
      match splitDash t with
      | [] => [[c]]
      | h :: r => (c :: h) :: r

/-- Model of the JavaScript truthiness-based string default
`opt || dflt` for an optional string (both `undefined` and `""` are falsy). -/
def jsOrStr (o : Option String) (d : String) : String :=
  match o with
  | none => d
  | some s => if s = "" then d else s

/-! ## Model of the WHATWG `new URL` parser

The repository calls the platform's `new URL(str)` and reads `hostname`,
`pathname` and `hash`.  `parseURL` models the parts of the WHATWG parser
those reads depend on: scheme validation, skipping of slashes before the
authority of special-scheme URLs, userinfo and port stripping, host
lower-casing, path extraction up to the query or fragment, backslash
normalisation in special-scheme paths, and `hash` extraction (empty when the
fragment is empty).  `none` models a thrown `TypeError`.  Host-character
validation and path `.`/`..` normalisation are not modelled. -/

structure URLRec where
  hostname : String
  pathname : String
  hash : String
deriving DecidableEq, Repr

/-- A valid scheme: a letter followed by letters, digits, `+`, `-` or `.`. -/
def validScheme (l : List Char) : Bool :=
  match l with
  | [] => false
  | c :: rest => c.isAlpha && rest.all (fun c => c.isAlpha || c.isDigit || c = '+' || c = '-' || c = '.')

def lowerL (l : List Char) : List Char := l.map Char.toLower

/-- The WHATWG special schemes. -/
def specialSchemes : List (List Char) :=
  ["http".toList, "https".toList, "ws".toList, "wss".toList, "ftp".toList, "file".toList]

/-- Extract the `hash` component (WHATWG: everything from the first `#`;
an empty fragment yields the empty string). -/
def extractHash (l : List Char) : String :=
  match l.dropWhile (fun c => c ≠ '#') with
  | '#' :: rest => if rest.isEmpty then "" else ('#' :: rest).asString
  | _ => ""

/-- From an authority string, keep the part after the last `@` (drop
userinfo), then strip a `:port` suffix; `none` models an invalid
(non-numeric) port, which makes the URL constructor throw. -/
def hostOfAuthority (auth : List Char) : Option (List Char) :=
  let hostport := (auth.reverse.takeWhile (fun c => c ≠ '@')).reverse
  match hostport.span (fun c => c ≠ ':') with
  | (host, []) => some (lowerL host)
  | (host, _ :: port) =>
    if port.all isDigitChar then some (lowerL host) else none

/-- Model of `new URL(str)` restricted to `hostname`, `pathname`, `hash`. -/
def parseURL (s : String) : Option URLRec :=
  match s.toList.span (fun c => c ≠ ':') with
  | (schemeRaw, ':' :: rest) =>
    if !(validScheme schemeRaw) then none
    else if specialSchemes.contains (lowerL schemeRaw) then
      let rest1 := rest.dropWhile (fun c => c = '/' || c = '\\')
      match rest1.span (fun c => c ≠ '/' && c ≠ '\\' && c ≠ '?' && c ≠ '#') with
      | (auth, rest2) =>
        match hostOfAuthority auth with
        | none => none
        | some host =>
          if host.isEmpty then none
          else
            match rest2.span (fun c => c ≠ '?' && c ≠ '#') with
            | (path, rest3) =>
              let pathname :=
                if path.isEmpty then "/"
                else (path.map (fun c => if c = '\\' then '/' else c)).asString
              some ⟨host.asString, pathname, extractHash rest3⟩
    else
      match rest with
      | '/' :: '/' :: r =>
        match r.span (fun c => c ≠ '/' && c ≠ '?' && c ≠ '#') with
        | (auth, rest2) =>
          match hostOfAuthority auth with
          | none => none
          | some host =>
            match rest2.span (fun c => c ≠ '?' && c ≠ '#') with
            | (path, rest3) => some ⟨host.asString, path.asString, extractHash rest3⟩
      | _ =>
        match rest.span (fun c => c ≠ '?' && c ≠ '#') with
        | (path, rest3) => some ⟨"", path.asString, extractHash rest3⟩
  | _ => none

/-! ## The two link validators -/

/-- The four allowlisted hostnames (server.js line 20 and line 177). -/
def allowedHostnames : List String :=
  ["mega.nz", "www.mega.nz", "mega.co.nz", "www.mega.co.nz"]

/-- Enhanced link validator, server.js lines 17-31. -/
def isAllowedMegaLink (str : String) : Bool :=
  match parseURL str with
  | none => false
  | some u =>
    let isValidHost := allowedHostnames.contains u.hostname
    let isFileLink :=
      jsStartsWith u.pathname "/file/" ||
      (u.pathname == "/" && jsStartsWith u.hash "#!") ||
      jsStartsWith u.pathname "/#!"
    isValidHost && isFileLink

/-- Legacy link validator, server.js lines 174-183.  By JavaScript operator
precedence the returned expression parses as
`host && (p.startsWith("/file/") || p.startsWith("/#!") || (p.startsWith("/f/") === false))`. -/
def isAllowedMegaLinkLegacy (str : String) : Bool :=
  match parseURL str with
  | none => false
  | some u =>
    allowedHostnames.contains u.hostname &&
      (jsStartsWith u.pathname "/file/" ||
       jsStartsWith u.pathname "/#!" ||
       (jsStartsWith u.pathname "/f/" == false))

/-! ## The range parser (server.js lines 36-45) -/

structure ByteRange where
  start : Int
  «end» : Int
deriving DecidableEq, Repr

/-- `let start = startStr ? parseInt(startStr, 10) : 0; if (Number.isNaN(start)) start = 0;` -/
def jsStartDefault (startStr : List Char) : Int :=
  if startStr = [] then 0
  else
    match jsParseIntL startStr with
    | none => 0
    | some v => v

/-- `let end = endStr ? parseInt(endStr, 10) : size - 1; if (Number.isNaN(end) || end >= size) end = size - 1;` -/
def jsEndDefault (endStr : Option (List Char)) (size : Nat) : Int :=
  match endStr with
  | none => (size : Int) - 1
  | some e =>
    if e = [] then (size : Int) - 1
    else
      match jsParseIntL e with
      | none => (size : Int) - 1
      | some v => if v ≥ (size : Int) then (size : Int) - 1 else v

/-- Body of `parseRange` after the `bytes=` prefix has been removed. -/
def parseRangeCore (body : List Char) (size : Nat) : Option ByteRange :=
  let parts := splitDash body
  let start := jsStartDefault (parts.headD [])
  let e := jsEndDefault (parts.get? 1) size
  if start > e || start < 0 then none else some ⟨start, e⟩

/-- `parseRange(rangeHeader, size)`, server.js lines 36-45.  The header is
`Option String` (`none` models an absent header).  Under the `startsWith`
guard, `rangeHeader.replace("bytes=", "")` removes exactly the six-character
prefix (the first occurrence of `"bytes="` is the prefix itself). -/
def parseRange (rangeHeader : Option String) (size : Nat) : Option ByteRange :=
  match rangeHeader with
  | none => none
  | some h =>
    if h = "" || !(jsStartsWith h "bytes=") then none
    else parseRangeCore (h.toList.drop 6) size

/-! ## The error mapper (server.js lines 116-141)

A provider error carries an optional free-text `message` and an optional
structured numeric `code` (`err.code === -9` is strict equality, so a missing
code never matches). -/

structure JsError where
  message : Option String
  code : Option Int
deriving DecidableEq, Repr

/-- `err.message?.includes(sub)` (optional chaining: `false` when absent). -/
def msgIncludes (e : JsError) (sub : String) : Bool :=
  match e.message with
  | none => false
  | some m => jsIncludes m sub

/-- `err.message?.includes('ENOENT') || err.code === -9` -/
def condNotFound (e : JsError) : Bool := msgIncludes e "ENOENT" || e.code == some (-9)

/-- `err.message?.includes('EACCESS') || err.code === -11` -/
def condAccess (e : JsError) : Bool := msgIncludes e "EACCESS" || e.code == some (-11)

/-- `err.message?.includes('EEXPIRED') || err.code === -8` -/
def condExpired (e : JsError) : Bool := msgIncludes e "EEXPIRED" || e.code == some (-8)

/-- `err.message?.includes('EOVERQUOTA') || err.code === -17` -/
def condQuota (e : JsError) : Bool := msgIncludes e "EOVERQUOTA" || e.code == some (-17)

/-- `err.message?.includes('EKEY') || err.message?.includes('decryption')` -/
def condKey (e : JsError) : Bool := msgIncludes e "EKEY" || msgIncludes e "decryption"

/-- `err.message?.includes('ETEMPUNAVAIL') || err.code === -18` -/
def condTemp (e : JsError) : Bool := msgIncludes e "ETEMPUNAVAIL" || e.code == some (-18)

/-- The `/dl` catch branch (server.js lines 116-141) as a status/message pair. -/
def mapError (e : JsError) : Nat × String :=
  if condNotFound e then
    (404, "File not found. The MEGA link may be invalid or the file was deleted.")
  else if condAccess e then
    (403, "Access denied. The file may be private or the link is incorrect.")
  else if condExpired e then
    (410, "The MEGA link has expired. Please get a fresh link.")
  else if condQuota e then
    (429, "MEGA quota exceeded. Please try again later.")
  else if condKey e then
    (400, "Invalid encryption key in the MEGA link.")
  else if condTemp e then
    (503, "MEGA service temporarily unavailable. Please try again later.")
  else
    (500, "Failed to fetch from MEGA: " ++ jsOrStr e.message "Unknown error")

/-! ## The `/dl` handler (server.js lines 61-142) -/

/-- Resolved file metadata.  `size = none` models a missing or non-numeric
`file.size` (for which `Number(file.size)` is `NaN`, a falsy value). -/
structure Metadata where
  name : Option String
  size : Option Nat
deriving DecidableEq, Repr

/-- What the response streams: a fixed text body, the byte window
`file.download({start, end})`, or the whole file `file.download()`. -/
inductive RespBody where
  | text (s : String)
  | streamRange (first last : Int)
  | streamFull
deriving DecidableEq, Repr

/-- Observable response: status, headers in the order they are set, body. -/
structure DlResponse where
  status : Nat
  headers : List (String × String)
  body : RespBody
deriving DecidableEq, Repr

/-- Uppercase hexadecimal digit. -/
def hexChar (n : Nat) : Char :=
  if n < 10 then Char.ofNat (48 + n) else Char.ofNat (55 + n)

/-- UTF-8 encoding of a code point, as byte values. -/
def utf8Bytes (n : Nat) : List Nat :=
  if n < 128 then [n]
  else if n < 2048 then [192 + n / 64, 128 + n % 64]
  else if n < 65536 then [224 + n / 4096, 128 + (n / 64) % 64, 128 + n % 64]
  else [240 + n / 262144, 128 + (n / 4096) % 64, 128 + (n / 64) % 64, 128 + n % 64]

/-- Code points left unescaped by JavaScript `encodeURIComponent`:
letters, digits and `- _ . ! ~ * ( )` and the apostrophe (code point 39). -/
def isUriUnreserved (n : Nat) : Bool :=
  (65 ≤ n && n ≤ 90) || (97 ≤ n && n ≤ 122) || (48 ≤ n && n ≤ 57) ||
  n = 45 || n = 95 || n = 46 || n = 33 || n = 126 || n = 42 || n = 39 || n = 40 || n = 41

/-- Model of JavaScript `encodeURIComponent`. -/
def encodeURIComponent (s : String) : String :=
  ((s.toList.map (fun c =>
    if isUriUnreserved c.toNat then [c]
    else ((utf8Bytes c.toNat).map (fun b => ['%', hexChar (b / 16), hexChar (b % 16)])).flatten)).flatten).asString

/-- The headers common to the full and partial branches (server.js lines
90-92): `Content-Disposition`, `Accept-Ranges`, `Cache-Control`.  The two
apostrophes of `filename*=UTF-8''` are built from code point 39. -/
def baseHeaders (fileName : String) : List (String × String) :=
  [("Content-Disposition",
    "attachment; filename*=UTF-8" ++ String.mk [Char.ofNat 39, Char.ofNat 39] ++ encodeURIComponent fileName),
   ("Accept-Ranges", "bytes"),
   ("Cache-Control", "no-store")]

/-- The `/dl` handler (server.js lines 61-142) as a pure function of the
`link` query parameter, the `Range` request header, and the outcome of the
external provider (`File.fromURL` + `loadAttributes`, modelled as a value of
`Except JsError Metadata` since the repository treats it as a black box). -/
def dlHandler (link : Option String) (rangeHeader : Option String)
    (provider : Except JsError Metadata) : DlResponse :=
  match link with
  | none => ⟨400, [], .text "Missing ?link=<MEGA_PUBLIC_FILE_URL>"⟩
  | some megaLink =>
    if !(isAllowedMegaLink megaLink) then
      ⟨400, [], .text "Only public MEGA FILE links are supported."⟩
    else
      match provider with
      | .error err => ⟨(mapError err).1, [], .text (mapError err).2⟩
      | .ok file =>
        let fileName := jsOrStr file.name "download.bin"
        match file.size with
        | none => ⟨400, [], .text "File appears to be empty or invalid."⟩
        | some 0 => ⟨400, [], .text "File appears to be empty or invalid."⟩
        | some (fs + 1) =>
          let fileSize := fs + 1
          match parseRange rangeHeader fileSize with
          | some r =>
            ⟨206,
             baseHeaders fileName ++
               [("Content-Type", "application/octet-stream"),
                ("Content-Range",
                 "bytes " ++ toString r.start ++ "-" ++ toString r.«end» ++ "/" ++ toString fileSize),
                ("Content-Length", toString (r.«end» - r.start + 1))],
             .streamRange r.start r.«end»⟩
          | none =>
            ⟨200,
             baseHeaders fileName ++
               [("Content-Length", toString fileSize),
                ("Content-Type", "application/octet-stream")],
             .streamFull⟩

/-! ## Reference definitions for decimal rendering

`Nat.repr` in core renders via the fuelled `Nat.toDigitsCore`; `natDigs` is a
structurally transparent equivalent used to reason about headers such as
`"bytes=-" ++ Nat.repr N`. -/

/-- Decimal digit characters of `n`, most significant first. -/
def natDigs (n : Nat) : List Char :=
  if _h : n < 10 then [Nat.digitChar n]
  else natDigs (n / 10) ++ [Nat.digitChar (n % 10)]
decreasing_by exact Nat.div_lt_self (by omega) (by omega)

/-! ## Helper lemmas -/

theorem listPrefixOf_iff (p : List Char) : ∀ l, listPrefixOf p l = true ↔ ∃ t, l = p ++ t := by
  induction p with
  | nil => intro l; simp [listPrefixOf]
  | cons a as ih =>
    intro l
    cases l with
    | nil => simp [listPrefixOf]
    | cons b bs =>
      simp only [listPrefixOf, Bool.and_eq_true, beq_iff_eq, ih, List.cons_append,
        List.cons.injEq]
      constructor
      · rintro ⟨rfl, t, rfl⟩; exact ⟨t, rfl, rfl⟩
      · rintro ⟨t, rfl, rfl⟩; exact ⟨rfl, t, rfl⟩

theorem takeWhile_of_all (p : Char → Bool) : ∀ (l : List Char), (∀ c ∈ l, p c = true) →
    l.takeWhile p = l := by
  intro l
  induction l with
  | nil => intro _; rfl
  | cons a t ih =>
    intro h
    rw [List.takeWhile_cons, if_pos (h a (by simp)), ih (fun c hc => h c (by simp [hc]))]

theorem toDigitsCore_eq_natDigs : ∀ (fuel n : Nat) (acc : List Char), n < fuel →
    Nat.toDigitsCore 10 fuel n acc = natDigs n ++ acc := by
  intro fuel
  induction fuel with
  | zero => intro n acc h; omega
  | succ f ih =>
    intro n acc h
    simp only [Nat.toDigitsCore]
    by_cases h10 : n / 10 = 0
    · rw [if_pos h10, natDigs.eq_def, dif_pos (show n < 10 by omega),
        Nat.mod_eq_of_lt (show n < 10 by omega)]
      rfl
    · rw [if_neg h10, ih (n / 10) _ (by omega)]
      conv_rhs => rw [natDigs.eq_def]
      rw [dif_neg (show ¬ n < 10 by omega), List.append_assoc]
      rfl

theorem repr_toList_eq_natDigs (n : Nat) : (Nat.repr n).toList = natDigs n := by
  show (Nat.toDigits 10 n).asString.toList = natDigs n
  rw [Nat.toDigits, toDigitsCore_eq_natDigs (n + 1) n [] (by omega), List.append_nil]
  rfl

theorem digitChar_digit (m : Nat) (h : m < 10) : isDigitChar (Nat.digitChar m) = true := by
  interval_cases m <;> decide

theorem digitChar_toNat (m : Nat) (h : m < 10) : (Nat.digitChar m).toNat = 48 + m := by
  interval_cases m <;> decide

theorem natDigs_all_digits (n : Nat) : ∀ c ∈ natDigs n, isDigitChar c = true := by
  induction n using Nat.strong_induction_on with
  | _ n ih =>
    rw [natDigs.eq_def]
    by_cases h : n < 10
    · rw [dif_pos h]
      intro c hc
      rw [List.mem_singleton] at hc
      subst hc
      exact digitChar_digit n h
    · rw [dif_neg h]
      intro c hc
      rcases List.mem_append.mp hc with h1 | h2
      · exact ih (n / 10) (Nat.div_lt_self (by omega) (by omega)) c h1
      · rw [List.mem_singleton] at h2
        subst h2
        exact digitChar_digit _ (Nat.mod_lt _ (by omega))

theorem natDigs_ne_nil (n : Nat) : natDigs n ≠ [] := by
  rw [natDigs.eq_def]
  split <;> simp

theorem digitsVal_append_singleton (l : List Char) (c : Char) :
    digitsVal (l ++ [c]) = 10 * digitsVal l + (c.toNat - 48) := by
  simp [digitsVal, List.foldl_append]

theorem digitsVal_natDigs (n : Nat) : digitsVal (natDigs n) = n := by
  induction n using Nat.strong_induction_on with
  | _ n ih =>
    rw [natDigs.eq_def]
    by_cases h : n < 10
    · rw [dif_pos h]
      simp [digitsVal, digitChar_toNat n h]
    · rw [dif_neg h, digitsVal_append_singleton,
        ih (n / 10) (Nat.div_lt_self (by omega) (by omega)),
        digitChar_toNat _ (Nat.mod_lt _ (by omega))]
      omega

theorem jsParseIntL_natDigs (n : Nat) : jsParseIntL (natDigs n) = some (n : Int) := by
  obtain ⟨c, t, hct⟩ : ∃ c t, natDigs n = c :: t := by
    cases h : natDigs n with
    | nil => exact absurd h (natDigs_ne_nil n)
    | cons c t => exact ⟨c, t, rfl⟩
  have hall := natDigs_all_digits n
  have hc : isDigitChar c = true := hall c (by rw [hct]; simp)
  have hcn : 48 ≤ c.toNat ∧ c.toNat ≤ 57 := by
    simpa [isDigitChar, decide_eq_true_eq] using hc
  have hspace : isJsSpace c = false := by
    simp only [isJsSpace, Bool.or_eq_false_iff, decide_eq_false_iff_not]
    omega
  have hminus : ¬ c = '-' := by
    intro h
    subst h
    revert hcn
    decide
  have hplus : ¬ c = '+' := by
    intro h
    subst h
    revert hcn
    decide
  simp only [jsParseIntL, hct, List.dropWhile_cons, hspace, Bool.false_eq_true, if_false,
    if_neg hminus, if_neg hplus]
  rw [← hct]
  simp only [parseDigits, takeWhile_of_all _ _ hall, if_neg (natDigs_ne_nil n),
    digitsVal_natDigs, Option.map_some]
  simp

theorem natDigs_no_dash (n : Nat) : ∀ c ∈ natDigs n, ¬ c = '-' := by
  intro c hc h
  have := natDigs_all_digits n c hc
  subst h
  revert this
  decide

theorem splitDash_of_no_dash : ∀ (l : List Char), (∀ c ∈ l, ¬ c = '-') → splitDash l = [l] := by
  intro l
  induction l with
  | nil => intro _; rfl
  | cons a t ih =>
    intro h
    simp only [splitDash, if_neg (h a (by simp)), ih (fun c hc => h c (by simp [hc]))]

theorem jsEndDefault_le (e : Option (List Char)) (size : Nat) :
    jsEndDefault e size ≤ (size : Int) - 1 := by
  rcases e with _ | e <;> simp only [jsEndDefault]
  · omega
  · split
    · omega
    · split
      · omega
      · split <;> omega

/-! ## Claim theorems -/

/-- C9: A multi-range header degenerates to the first segment only:
`parseRange("bytes=0-10,20-30", 1000)` returns `{start: 0, end: 10}` — the
window of the first listed range, not `Invalid` and not any combination of
the listed ranges. -/
theorem parseRange_multirange_first_segment :
    parseRange (some "bytes=0-10,20-30") 1000 = some ⟨0, 10⟩ := by decide

/-- C4: Whenever `parseRange(header, size)` returns a range for a positive
`size`, that range satisfies `0 ≤ start ≤ end ≤ size - 1`, so no
out-of-bounds or inverted window is ever passed to the provider. -/
theorem parseRange_window_invariant (h : Option String) (size : Nat) (r : ByteRange)
    (hpos : 0 < size) (hr : parseRange h size = some r) :
    0 ≤ r.start ∧ r.start ≤ r.«end» ∧ r.«end» ≤ (size : Int) - 1 := by
  rcases h with _ | s
  · simp [parseRange] at hr
  · rw [parseRange] at hr
    split at hr
    · exact absurd hr (by simp)
    · simp only [parseRangeCore] at hr
      split at hr
      · exact absurd hr (by simp)
      · next hcond =>
        rw [Option.some.injEq] at hr
        subst hr
        dsimp only
        simp only [Bool.or_eq_true, decide_eq_true_eq, not_or] at hcond
        refine ⟨by omega, by omega, jsEndDefault_le _ _⟩

/-- C4 witness: the invariant holds for the concrete request
`Range: bytes=0-99` against a 1000-byte file. -/
theorem parseRange_window_invariant_witness :
    0 ≤ (ByteRange.mk 0 99).start ∧
    (ByteRange.mk 0 99).start ≤ (ByteRange.mk 0 99).«end» ∧
    (ByteRange.mk 0 99).«end» ≤ ((1000 : Nat) : Int) - 1 :=
  parseRange_window_invariant (some "bytes=0-99") 1000 ⟨0, 99⟩ (by decide) (by decide)

/-- C8: a missing, non-numeric, or out-of-bounds end defaults or clamps to
`size - 1`, and a non-numeric start defaults to `0`; concretely
`parseRange("bytes=500-", 1000) = {start:500, end:999}` and
`parseRange("bytes=900-1500", 1000) = {start:900, end:999}`. -/
theorem parseRange_end_clamping :
    (∀ size : Nat, jsEndDefault none size = (size : Int) - 1) ∧
    (∀ (e : List Char) (size : Nat), jsParseIntL e = none →
      jsEndDefault (some e) size = (size : Int) - 1) ∧
    (∀ (e : List Char) (size : Nat) (v : Int), jsParseIntL e = some v → v ≥ (size : Int) →
      jsEndDefault (some e) size = (size : Int) - 1) ∧
    (∀ s : List Char, jsParseIntL s = none → jsStartDefault s = 0) ∧
    parseRange (some "bytes=500-") 1000 = some ⟨500, 999⟩ ∧
    parseRange (some "bytes=900-1500") 1000 = some ⟨900, 999⟩ := by
  refine ⟨fun size => rfl, ?_, ?_, ?_, by decide, by decide⟩
  · intro e size he
    by_cases h0 : e = []
    · simp [jsEndDefault, h0]
    · simp [jsEndDefault, h0, he]
  · intro e size v hv hge
    by_cases h0 : e = []
    · subst h0
      simp [jsParseIntL] at hv
    · simp [jsEndDefault, h0, hv, hge]
  · intro s hs
    by_cases h0 : s = []
    · simp [jsStartDefault, h0]
    · simp [jsStartDefault, h0, hs]

/-- C8 witness: a non-numeric end (`"abc"`) clamps to `size - 1` for
`size = 1000`. -/
theorem parseRange_end_clamping_witness :
    jsEndDefault (some "abc".toList) 1000 = ((1000 : Nat) : Int) - 1 :=
  parseRange_end_clamping.2.1 "abc".toList 1000 (by decide)

/-- C2: The error mapping of the `/dl` catch branch is a deterministic total
function from provider errors to HTTP outcomes: the first matching condition
in table order wins (not-found 404, access-denied 403, expired 410, quota
429, key/decryption 400, temporarily-unavailable 503), each condition can
match via the structured code or the free-text message, an error matching no
condition yields 500 with the message passed through, and every produced
status is among the seven listed ones. -/
theorem mapError_first_match_table (e : JsError) :
    (condNotFound e = true →
      mapError e = (404, "File not found. The MEGA link may be invalid or the file was deleted.")) ∧
    (condNotFound e = false → condAccess e = true →
      mapError e = (403, "Access denied. The file may be private or the link is incorrect.")) ∧
    (condNotFound e = false → condAccess e = false → condExpired e = true →
      mapError e = (410, "The MEGA link has expired. Please get a fresh link.")) ∧
    (condNotFound e = false → condAccess e = false → condExpired e = false →
      condQuota e = true →
      mapError e = (429, "MEGA quota exceeded. Please try again later.")) ∧
    (condNotFound e = false → condAccess e = false → condExpired e = false →
      condQuota e = false → condKey e = true →
      mapError e = (400, "Invalid encryption key in the MEGA link.")) ∧
    (condNotFound e = false → condAccess e = false → condExpired e = false →
      condQuota e = false → condKey e = false → condTemp e = true →
      mapError e = (503, "MEGA service temporarily unavailable. Please try again later.")) ∧
    (condNotFound e = false → condAccess e = false → condExpired e = false →
      condQuota e = false → condKey e = false → condTemp e = false →
      mapError e = (500, "Failed to fetch from MEGA: " ++ jsOrStr e.message "Unknown error")) ∧
    ((mapError e).1 = 404 ∨ (mapError e).1 = 403 ∨ (mapError e).1 = 410 ∨
     (mapError e).1 = 429 ∨ (mapError e).1 = 400 ∨ (mapError e).1 = 503 ∨
     (mapError e).1 = 500) ∧
    (∀ (m : String) (c : Option Int), jsIncludes m "ENOENT" = true →
      condNotFound ⟨some m, c⟩ = true) ∧
    (∀ m : Option String, condNotFound ⟨m, some (-9)⟩ = true) ∧
    (∀ (m : String) (c : Option Int), jsIncludes m "EACCESS" = true →
      condAccess ⟨some m, c⟩ = true) ∧
    (∀ m : Option String, condAccess ⟨m, some (-11)⟩ = true) ∧
    (∀ (m : String) (c : Option Int), jsIncludes m "EEXPIRED" = true →
      condExpired ⟨some m, c⟩ = true) ∧
    (∀ m : Option String, condExpired ⟨m, some (-8)⟩ = true) ∧
    (∀ (m : String) (c : Option Int), jsIncludes m "EOVERQUOTA" = true →
      condQuota ⟨some m, c⟩ = true) ∧
    (∀ m : Option String, condQuota ⟨m, some (-17)⟩ = true) ∧
    (∀ (m : String) (c : Option Int),
      jsIncludes m "EKEY" = true ∨ jsIncludes m "decryption" = true →
      condKey ⟨some m, c⟩ = true) ∧
    (∀ (m : String) (c : Option Int), jsIncludes m "ETEMPUNAVAIL" = true →
      condTemp ⟨some m, c⟩ = true) ∧
    (∀ m : Option String, condTemp ⟨m, some (-18)⟩ = true) := by
  refine ⟨?_, ?_, ?_, ?_, ?_, ?_, ?_, ?_, ?_, ?_, ?_, ?_, ?_, ?_, ?_, ?_, ?_, ?_, ?_⟩
  · intro h1; simp [mapError, h1]
  · intro h1 h2; simp [mapError, h1, h2]
  · intro h1 h2 h3; simp [mapError, h1, h2, h3]
  · intro h1 h2 h3 h4; simp [mapError, h1, h2, h3, h4]
  · intro h1 h2 h3 h4 h5; simp [mapError, h1, h2, h3, h4, h5]
  · intro h1 h2 h3 h4 h5 h6; simp [mapError, h1, h2, h3, h4, h5, h6]
  · intro h1 h2 h3 h4 h5 h6; simp [mapError, h1, h2, h3, h4, h5, h6]
  · unfold mapError; split_ifs <;> simp
  · intro m c hm; simp [condNotFound, msgIncludes, hm]
  · intro m; simp [condNotFound]
  · intro m c hm; simp [condAccess, msgIncludes, hm]
  · intro m; simp [condAccess]
  · intro m c hm; simp [condExpired, msgIncludes, hm]
  · intro m; simp [condExpired]
  · intro m c hm; simp [condQuota, msgIncludes, hm]
  · intro m; simp [condQuota]
  · intro m c hm; rcases hm with hm | hm <;> simp [condKey, msgIncludes, hm]
  · intro m c hm; simp [condTemp, msgIncludes, hm]
  · intro m; simp [condTemp]

/-- C2 witness: a concrete `ENOENT` error maps to 404, and a concrete
unrecognized error maps to 500 with its message passed through. -/
theorem mapError_first_match_table_witness :
    mapError ⟨some "ENOENT: no such file", none⟩ =
      (404, "File not found. The MEGA link may be invalid or the file was deleted.") ∧
    mapError ⟨some "something odd happened", some 7⟩ =
      (500, "Failed to fetch from MEGA: something odd happened") :=
  ⟨(mapError_first_match_table ⟨some "ENOENT: no such file", none⟩).1 (by decide),
   (mapError_first_match_table ⟨some "something odd happened", some 7⟩).2.2.2.2.2.2.1
     (by decide) (by decide) (by decide) (by decide) (by decide) (by decide)⟩

/-- C3: For every request whose link validates, whose metadata resolves with
positive size, and whose `Range` header parses to a concrete byte range
`{start, end}`, the `/dl` response has status 206, a `Content-Range` header
equal to `bytes <start>-<end>/<size>`, a `Content-Length` header equal to
`end - start + 1`, and `Content-Type: application/octet-stream`. -/
theorem dlHandler_range_branch (l : String) (rh : Option String) (md : Metadata)
    (sz : Nat) (s e : Int)
    (hlink : isAllowedMegaLink l = true)
    (hsz : md.size = some sz) (hpos : 0 < sz)
    (hr : parseRange rh sz = some ⟨s, e⟩) :
    dlHandler (some l) rh (Except.ok md) =
      ⟨206,
       baseHeaders (jsOrStr md.name "download.bin") ++
         [("Content-Type", "application/octet-stream"),
          ("Content-Range", "bytes " ++ toString s ++ "-" ++ toString e ++ "/" ++ toString sz),
          ("Content-Length", toString (e - s + 1))],
       RespBody.streamRange s e⟩ := by
  obtain ⟨fs, rfl⟩ : ∃ fs, sz = fs + 1 := ⟨sz - 1, by omega⟩
  simp [dlHandler, hlink, hsz, hr]

/-- C3 witness: with resolved size 1000 and `Range: bytes=0-99` the response
is 206 with `Content-Range: bytes 0-99/1000` and `Content-Length: 100`. -/
theorem dlHandler_range_branch_witness :
    dlHandler (some "https://mega.nz/file/XXXX") (some "bytes=0-99")
        (Except.ok ⟨some "a.bin", some 1000⟩) =
      ⟨206,
       baseHeaders "a.bin" ++
         [("Content-Type", "application/octet-stream"),
          ("Content-Range", "bytes 0-99/1000"),
          ("Content-Length", "100")],
       RespBody.streamRange 0 99⟩ := by
  have h := dlHandler_range_branch "https://mega.nz/file/XXXX" (some "bytes=0-99")
    ⟨some "a.bin", some 1000⟩ 1000 0 99 (by decide) rfl (by decide) (by decide)
  exact h.trans (by decide)

/-- C5: with a validated link and positive resolved size, an absent `Range`
header, a header not starting with `bytes=`, and a header that parses as
invalid (such as `bytes=500-100`, start > end after defaulting) all yield
`parseRange = none`, and in that case the `/dl` response is status 200
serving the full file with `Content-Type: application/octet-stream` and
`Content-Length` equal to the size. -/
theorem dlHandler_full_branch :
    (∀ size : Nat, 0 < size → parseRange none size = none) ∧
    (∀ (h : String) (size : Nat), jsStartsWith h "bytes=" = false →
      parseRange (some h) size = none) ∧
    parseRange (some "bytes=500-100") 1000 = none ∧
    (∀ (l : String) (rh : Option String) (md : Metadata) (sz : Nat),
      isAllowedMegaLink l = true → md.size = some sz → 0 < sz →
      parseRange rh sz = none →
      dlHandler (some l) rh (Except.ok md) =
        ⟨200,
         baseHeaders (jsOrStr md.name "download.bin") ++
           [("Content-Length", toString sz),
            ("Content-Type", "application/octet-stream")],
         RespBody.streamFull⟩) := by
  refine ⟨fun size _ => rfl, ?_, by decide, ?_⟩
  · intro h size hsw
    simp [parseRange, hsw]
  · intro l rh md sz hlink hsz hpos hr
    obtain ⟨fs, rfl⟩ : ∃ fs, sz = fs + 1 := ⟨sz - 1, by omega⟩
    simp [dlHandler, hlink, hsz, hr]

/-- C5 witness: a malformed range (`bytes=500-100`, start > end) against a
validated link with size 1000 degrades to a 200 full-file response. -/
theorem dlHandler_full_branch_witness :
    dlHandler (some "https://mega.nz/file/XXXX") (some "bytes=500-100")
        (Except.ok ⟨some "a.bin", some 1000⟩) =
      ⟨200,
       baseHeaders "a.bin" ++
         [("Content-Length", "1000"),
          ("Content-Type", "application/octet-stream")],
       RespBody.streamFull⟩ := by
  have h := dlHandler_full_branch.2.2.2 "https://mega.nz/file/XXXX" (some "bytes=500-100")
    ⟨some "a.bin", some 1000⟩ 1000 (by decide) rfl (by decide) (by decide)
  exact h.trans (by decide)

/-- C6: with a validated link, a metadata result whose size is 0 or missing
(or non-numeric, in which case `Number(file.size)` is `NaN` and falsy)
yields status 400 with the distinct empty-or-invalid-file message, bypassing
the generic error mapper, and in particular never a 200 response. -/
theorem dlHandler_empty_file (l : String) (rh : Option String) (md : Metadata)
    (hlink : isAllowedMegaLink l = true)
    (hsz : md.size = none ∨ md.size = some 0) :
    dlHandler (some l) rh (Except.ok md) =
      ⟨400, [], RespBody.text "File appears to be empty or invalid."⟩ ∧
    (dlHandler (some l) rh (Except.ok md)).status ≠ 200 := by
  rcases hsz with h | h <;> exact ⟨by simp [dlHandler, hlink, h], by simp [dlHandler, hlink, h]⟩

/-- C6 witness: a validated link whose metadata reports size 0 produces the
400 empty-file response. -/
theorem dlHandler_empty_file_witness :
    dlHandler (some "https://mega.nz/file/XXXX") none (Except.ok ⟨some "a.bin", some 0⟩) =
      ⟨400, [], RespBody.text "File appears to be empty or invalid."⟩ ∧
    (dlHandler (some "https://mega.nz/file/XXXX") none
        (Except.ok ⟨some "a.bin", some 0⟩)).status ≠ 200 :=
  dlHandler_empty_file "https://mega.nz/file/XXXX" none ⟨some "a.bin", some 0⟩
    (by decide) (Or.inr rfl)

/-- C7: a missing left side of a suffix-form header defaults start to `0`
rather than computing a last-N-bytes window: for every positive `size` and
every `N ≤ size - 1`, `parseRange("bytes=-" ++ N, size)` returns
`{start: 0, end: N}`. -/
theorem parseRange_suffix_defaults_start (size N : Nat) (hpos : 0 < size)
    (hN : N ≤ size - 1) :
    parseRange (some ("bytes=-" ++ Nat.repr N)) size = some ⟨0, (N : Int)⟩ := by
  have hdata : ("bytes=-" ++ Nat.repr N).toList = ['b','y','t','e','s','=','-'] ++ natDigs N := by
    show ("bytes=-" ++ Nat.repr N).data = _
    rw [String.data_append, ← repr_toList_eq_natDigs N]
    rfl
  have hne : ¬ ("bytes=-" ++ Nat.repr N) = "" := by
    intro h
    have h2 := congrArg String.toList h
    rw [hdata] at h2
    simp at h2
  have hsw : jsStartsWith ("bytes=-" ++ Nat.repr N) "bytes=" = true := by
    show listPrefixOf "bytes=".toList ("bytes=-" ++ Nat.repr N).toList = true
    rw [hdata]
    rfl
  rw [parseRange, if_neg (by simp [hne, hsw])]
  have hdrop : (("bytes=-" ++ Nat.repr N).toList).drop 6 = '-' :: natDigs N := by
    rw [hdata]
    rfl
  rw [hdrop, parseRangeCore]
  have hsplit : splitDash ('-' :: natDigs N) = [[], natDigs N] := by
    simp [splitDash, splitDash_of_no_dash (natDigs N) (natDigs_no_dash N)]
  rw [hsplit]
  have hend : jsEndDefault (some (natDigs N)) size = (N : Int) := by
    simp only [jsEndDefault, if_neg (natDigs_ne_nil N), jsParseIntL_natDigs]
    rw [if_neg (by omega)]
  have hstart : jsStartDefault ([] : List Char) = 0 := rfl
  simp only [List.headD_cons, List.get?_cons_succ, List.get?_cons_zero, hend, hstart]
  rw [if_neg (by simp)]

/-- C7 witness: `parseRange("bytes=-100", 1000)` returns `{start: 0, end: 100}`. -/
theorem parseRange_suffix_defaults_start_witness :
    parseRange (some "bytes=-100") 1000 = some ⟨0, 100⟩ := by
  have h := parseRange_suffix_defaults_start 1000 100 (by decide) (by decide)
  have heq : ("bytes=-" ++ Nat.repr 100) = "bytes=-100" := by decide
  rw [heq] at h
  exact h.trans (by decide)

/-- C1: `isAllowedMegaLink` returns true exactly when its argument parses as
a URL whose hostname is one of the four allowlisted hostnames and whose
shape is one of the three accepted file-link shapes (path beginning with
`/file/`, or root path with a fragment starting with `#!`, or path
beginning with `/#!`); in particular every non-URL string yields false,
every URL with a non-allowlisted host yields false regardless of path, and
an allowed host with a path beginning with `/folder/` yields false. -/
theorem isAllowedMegaLink_spec (s : String) :
    (isAllowedMegaLink s = true ↔
      ∃ u, parseURL s = some u ∧ u.hostname ∈ allowedHostnames ∧
        (jsStartsWith u.pathname "/file/" = true ∨
         (u.pathname = "/" ∧ jsStartsWith u.hash "#!" = true) ∨
         jsStartsWith u.pathname "/#!" = true)) ∧
    (parseURL s = none → isAllowedMegaLink s = false) ∧
    (∀ u, parseURL s = some u → u.hostname ∉ allowedHostnames →
      isAllowedMegaLink s = false) ∧
    (∀ u, parseURL s = some u → u.hostname ∈ allowedHostnames →
      jsStartsWith u.pathname "/folder/" = true → isAllowedMegaLink s = false) := by
  cases hu : parseURL s with
  | none =>
    refine ⟨by simp [isAllowedMegaLink, hu], fun _ => by simp [isAllowedMegaLink, hu],
      fun u hu' => absurd hu' (by simp),
      fun u hu' => absurd hu' (by simp)⟩
  | some u =>
    have hcont : ∀ h : String, allowedHostnames.contains h = true ↔ h ∈ allowedHostnames := by
      intro h
      simp [List.contains, List.elem_iff]
    refine ⟨?_, fun h => absurd h (by simp), ?_, ?_⟩
    · simp only [isAllowedMegaLink, hu, Bool.and_eq_true, Bool.or_eq_true, beq_iff_eq, hcont]
      constructor
      · rintro ⟨hhost, hshape⟩
        exact ⟨u, rfl, hhost, by tauto⟩
      · rintro ⟨u', hu', hhost, hshape⟩
        rw [Option.some.injEq] at hu'
        subst hu'
        exact ⟨hhost, by tauto⟩
    · intro u' hu' hmem
      rw [Option.some.injEq] at hu'
      subst hu'
      have hc : allowedHostnames.contains u.hostname = false := by
        rw [← Bool.not_eq_true, hcont]
        exact hmem
      simp only [isAllowedMegaLink, hu, hc, Bool.false_and]
    · intro u' hu' hmem hpre
      rw [Option.some.injEq] at hu'
      subst hu'
      obtain ⟨t, ht⟩ := (listPrefixOf_iff _ _).mp hpre
      have h1 : jsStartsWith u.pathname "/file/" = false := by
        show listPrefixOf "/file/".toList u.pathname.toList = false
        rw [ht]
        rfl
      have h2 : (u.pathname == "/") = false := by
        rw [beq_eq_false_iff_ne]
        intro hp
        rw [hp] at ht
        simp at ht
      have h3 : jsStartsWith u.pathname "/#!" = false := by
        show listPrefixOf "/#!".toList u.pathname.toList = false
        rw [ht]
        rfl
      simp [isAllowedMegaLink, hu, h1, h2, h3]

/-- C1 witness: concrete evaluations — a conforming file link is accepted,
and a folder link on an allowed host is rejected. -/
theorem isAllowedMegaLink_spec_witness :
    isAllowedMegaLink "https://mega.nz/file/XXXX" = true ∧
    isAllowedMegaLink "https://mega.nz/folder/XXXX" = false := by
  constructor
  · exact ((isAllowedMegaLink_spec "https://mega.nz/file/XXXX").1).mpr
      ⟨⟨"mega.nz", "/file/XXXX", ""⟩, by decide, by decide, Or.inl (by decide)⟩
  · exact (isAllowedMegaLink_spec "https://mega.nz/folder/XXXX").2.2.2
      ⟨"mega.nz", "/folder/XXXX", ""⟩ (by decide) (by decide) (by decide)

/-- C10 counterexample: the two validators are not extensionally equal — on
the allowed-host folder link `https://mega.nz/folder/XXXX` the enhanced
version returns `false` while the legacy version returns `true` (its third
disjunct `u.pathname.startsWith("/f/") === false` holds for `/folder/…`). -/
theorem validators_differ_at_folder_link :
    isAllowedMegaLink "https://mega.nz/folder/XXXX" ≠
      isAllowedMegaLinkLegacy "https://mega.nz/folder/XXXX" := by decide

/-- C10 (amended): the enhanced validator refines the legacy one — every
string accepted by the enhanced version (server.js lines 17-31) is accepted
by the legacy version (server.js lines 174-183) — but not conversely. -/
theorem enhanced_implies_legacy (s : String) (h : isAllowedMegaLink s = true) :
    isAllowedMegaLinkLegacy s = true := by
  cases hu : parseURL s with
  | none =>
    rw [isAllowedMegaLink, hu] at h
    exact absurd h (by simp)
  | some u =>
    rw [isAllowedMegaLink, hu] at h
    rw [isAllowedMegaLinkLegacy, hu]
    simp only [Bool.and_eq_true, Bool.or_eq_true] at h ⊢
    obtain ⟨hhost, hshape⟩ := h
    refine ⟨hhost, ?_⟩
    rcases hshape with (h1 | h2) | h3
    · exact Or.inl (Or.inl h1)
    · obtain ⟨hroot, _⟩ := h2
      rw [beq_iff_eq] at hroot
      refine Or.inr ?_
      rw [hroot]
      decide
    · exact Or.inl (Or.inr h3)

/-- C10 witness: the enhanced validator accepts `https://mega.nz/file/XXXX`,
hence so does the legacy validator. -/
theorem enhanced_implies_legacy_witness :
    isAllowedMegaLinkLegacy "https://mega.nz/file/XXXX" = true :=
  enhanced_implies_legacy "https://mega.nz/file/XXXX" (by decide)
